import Mathlib

/-!
Verification development for the ProjectizeSlack repository.

The definitions below are a shallow embedding of the JavaScript sources:
pure functions become Lean functions, the JSON/Postgres queue store becomes
an explicit `List QueueEntry` state, network calls (Motion API, Claude API)
become function parameters (oracles), and JavaScript's loose values are
modelled by `JsVal` with explicit truthiness.  Timestamps are natural
numbers.  Chat posting and console logging are modelled as message lists
where a claim mentions them and omitted where they cannot affect the store.
-/

/-- A JavaScript value as far as the validated task fields need: a string,
a number, or null.  An absent (`undefined`) field is `Option.none` at the
use sites. -/
inductive JsVal where
  | vStr (s : String)
  | vNum (n : Int)
  | vNull
deriving Repr, DecidableEq

/-- JavaScript truthiness of a possibly-absent value: `undefined`, `null`,
the empty string and the number 0 are falsy. -/
def truthy : Option JsVal → Bool
  | none => false
  | some (.vStr s) => !(s == "")
  | some (.vNum n) => !(n == 0)
  | some .vNull => false

/-- Whether a possibly-absent value is a string (`typeof v === 'string'`). -/
def isStr : Option JsVal → Bool
  | some (.vStr _) => true
  | _ => false

/-- The string payload of a value known to be a string (dummy otherwise). -/
def strVal : Option JsVal → String
  | some (.vStr s) => s
  | _ => ""

/-- Character-level rendering of JavaScript's `String.prototype.trim`:
drop whitespace from both ends. -/
def jsTrim (cs : List Char) : List Char :=
  ((cs.dropWhile Char.isWhitespace).reverse.dropWhile Char.isWhitespace).reverse

/-- Character-level rendering of `text.split('\n')`. -/
def splitLines : List Char → List (List Char)
  | [] => [[]]
  | c :: cs =>
    if c = '\n' then [] :: splitLines cs
    else
      match splitLines cs with
      | [] => [[c]]
      | l :: ls => (c :: l) :: ls

/-- Character-level rendering of splitting at whitespace (`split(/\s+/)`);
empty pieces between consecutive whitespace characters are produced here
and removed by the length filters at every use site, which composes to the
same word list the JavaScript regex split yields. -/
def splitWs : List Char → List (List Char)
  | [] => [[]]
  | c :: cs =>
    if c.isWhitespace then [] :: splitWs cs
    else
      match splitWs cs with
      | [] => [[c]]
      | l :: ls => (c :: l) :: ls

/-- Character-level `toLowerCase`. -/
def jsLower (s : String) : String :=
  String.mk (s.toList.map Char.toLower)

/-- Whether the first list starts with the second (used for the substring
check below). -/
def startsWithList : List Char → List Char → Bool
  | _, [] => true
  | [], _ :: _ => false
  | c :: cs, p :: ps => c == p && startsWithList cs ps

/-- Helper for `strContains`: does `p` occur in the list at any position. -/
def containsAt (p : List Char) : List Char → Bool
  | [] => p.isEmpty
  | c :: cs => startsWithList (c :: cs) p || containsAt p cs

/-- JavaScript's `s.includes(pat)`: substring containment. -/
def strContains (s pat : String) : Bool :=
  containsAt pat.toList s.toList

/-- From `src/utils/parser.js`, `extractQuotedText`: split into lines, keep
the lines whose trimmed form starts with `>`, strip a leading `>` and the
whitespace after it (the regex `^>\s*` applied to the original, untrimmed
line), trim, drop empties, and join with single spaces. -/
def extractQuotedText (text : String) : String :=
  let lines := splitLines text.toList
  let kept := lines.filter (fun l => startsWithList (jsTrim l) ['>'])
  let stripped := kept.map (fun l =>
    match l with
    | '>' :: rest => jsTrim (rest.dropWhile Char.isWhitespace)
    | _ => jsTrim l)
  let nonEmpty := stripped.filter (fun l => 0 < l.length)
  String.mk (List.intercalate [' '] nonEmpty)

/-- A task draft as the extraction pipeline stores it (`extracted_tasks`
elements). -/
structure MTask where
  title : String
  context : Option String
  priority : Option String
  due_date : Option String
  assignee : Option String
deriving Repr, DecidableEq

/-- A Motion workspace (destination group). -/
structure Workspace where
  id : String
  name : String
deriving Repr, DecidableEq

/-- A Motion project inside a workspace. -/
structure Project where
  id : String
  name : String
deriving Repr, DecidableEq

/-- A stored workspace suggestion (`workspace_suggestions` elements). -/
structure Suggestion where
  workspace : Workspace
  project : Option Project
  confidence : String
  reasoning : String
deriving Repr, DecidableEq

/-- The outcome of one Motion `createTask` call, abstracted to the success
flag the callers branch on. -/
structure CreateResult where
  success : Bool
deriving Repr, DecidableEq

/-- A row of the `task_queue` store, shared by the Supabase backend
(`src/services/supabase.js`) and the flat-file backend
(`src/services/local-storage.js`). -/
structure QueueEntry where
  id : Nat
  slack_message_ts : String
  slack_channel_id : String
  extracted_tasks : List MTask
  workspace_suggestions : List Suggestion
  status : String
  retry_count : Nat
  error_message : Option String
  created_at : Nat
  last_attempt : Option Nat
deriving Repr, DecidableEq

/-- The partial-field updates passed to `updateTaskQueue`; only the fields
the modelled call sites pass. -/
structure QueueUpdates where
  status : Option String
  retry_count : Option Nat
  error_message : Option String
deriving Repr, DecidableEq

/-- Merging an update object into a row, stamping `last_attempt`, exactly
as both backends' `updateTaskQueue` do. -/
def applyUpdates (e : QueueEntry) (u : QueueUpdates) (now : Nat) : QueueEntry :=
  { e with
    status := u.status.getD e.status
    retry_count := u.retry_count.getD e.retry_count
    error_message := match u.error_message with
      | some m => some m
      | none => e.error_message
    last_attempt := some now }

/-- Supabase `updateTaskQueue`: `update ... eq('id', id)` touches every row
with the id (ids are unique in practice). -/
def updateTaskQueueDb (q : List QueueEntry) (id : Nat) (u : QueueUpdates)
    (now : Nat) : List QueueEntry :=
  q.map (fun e => if e.id = id then applyUpdates e u now else e)

/-- Flat-file `updateTaskQueue`: updates the first row whose id matches
(`findIndex`); the source throws when the id is absent, a case none of the
modelled call sites reach, so the list is returned unchanged there. -/
def updateTaskQueueLocal (q : List QueueEntry) (id : Nat) (u : QueueUpdates)
    (now : Nat) : List QueueEntry :=
  match q with
  | [] => []
  | e :: rest =>
    if e.id = id then applyUpdates e u now :: rest
    else e :: updateTaskQueueLocal rest id u now

/-- Stable insertion used by `stableSortBy`: the new element goes after
every already-placed element it does not strictly precede. -/
def insertS {α : Type} (le : α → α → Bool) (x : α) : List α → List α
  | [] => [x]
  | y :: ys => if le y x then y :: insertS le x ys else x :: y :: ys

/-- A stable sort, modelling both the SQL `order by` of the Supabase
backend and the (ES2019-stable) `Array.prototype.sort` of the matcher. -/
def stableSortBy {α : Type} (le : α → α → Bool) (l : List α) : List α :=
  l.foldl (fun acc x => insertS le x acc) []

/-- The row filter of `getPendingTasks`: status `pending` and fewer than 3
retries. -/
def pendingPred (e : QueueEntry) : Bool :=
  e.status == "pending" && decide (e.retry_count < 3)

/-- Ordering on rows by creation time, for the SQL `order by created_at`. -/
def createdLe (a b : QueueEntry) : Bool :=
  decide (a.created_at ≤ b.created_at)

/-- Supabase `getPendingTasks(limit)`: filter status `pending` and
`retry_count < 3`, order by `created_at` ascending, cap at `limit`. -/
def getPendingTasksDb (limit : Nat) (q : List QueueEntry) : List QueueEntry :=
  (stableSortBy createdLe (q.filter pendingPred)).take limit

/-- Flat-file `getPendingTasks(limit)`: filter the stored list (the file
keeps insertion order) and take the first `limit`; `(t.retry_count || 0)`
is the plain counter here because the model types it as `Nat`. -/
def getPendingTasksLocal (limit : Nat) (q : List QueueEntry) : List QueueEntry :=
  (q.filter pendingPred).take limit

/-- Flat-file `getTaskByMessage(messageTs, channelId)`: `Array.find` over
the stored list. -/
def matchKey (ts ch : String) (e : QueueEntry) : Bool :=
  e.slack_message_ts == ts && e.slack_channel_id == ch

/-- Flat-file `getTaskByMessage`. -/
def getTaskByMessage (q : List QueueEntry) (ts ch : String) : Option QueueEntry :=
  q.find? (matchKey ts ch)

/-- The aggregate returned by `MotionService.createMultipleTasks`. -/
structure MultiResult where
  success : Bool
  total : Nat
  successful : Nat
  failed : Nat
  results : List CreateResult
  failed_tasks : List CreateResult
deriving Repr, DecidableEq

/-- The batching loop of `createMultipleTasks`: slices of `batchSize = 10`,
each batch mapped through one `createTask` call (`f` stands for the
network call; the inter-request and inter-batch delays are timing only). -/
def batched (f : MTask → CreateResult) : List MTask → List CreateResult
  | [] => []
  | t :: ts => ((t :: ts).take 10).map f ++ batched f (ts.drop 9)
termination_by l => l.length
decreasing_by
  simp only [List.length_drop, List.length_cons]
  omega

/-- `MotionService.createMultipleTasks` from `src/services/motion.js`:
process in batches, aggregate the per-task results, and report overall
success exactly when no per-task result failed. -/
def createMultipleTasks (f : MTask → CreateResult) (tasks : List MTask) :
    MultiResult :=
  let results := batched f tasks
  let successfulL := results.filter (fun r => r.success)
  let failedL := results.filter (fun r => !r.success)
  { success := failedL.length == 0
    total := results.length
    successful := successfulL.length
    failed := failedL.length
    results := results
    failed_tasks := failedL }

/-- `handleTaskApproval` from `src/handlers/batch.js` (Supabase backend),
restricted to its queue-store effects: mark the entry `processing`, run
`createMultipleTasks`, then mark it `completed` on success, or `failed`
with `retry_count` bumped (`(queuedTasks.retry_count || 0) + 1`, the
fallback being the identity on the `Nat`-typed counter) on failure.  The
chat messages and the history insert do not touch the queue and are
omitted; the caller `handleBatch` only reaches this with an entry it
looked up in status `pending`. -/
def handleTaskApproval (queuedTasks : QueueEntry) (f : MTask → CreateResult)
    (q : List QueueEntry) (now : Nat) : List QueueEntry :=
  let q1 := updateTaskQueueDb q queuedTasks.id
    { status := some "processing", retry_count := none, error_message := none } now
  let motionResult := createMultipleTasks f queuedTasks.extracted_tasks
  if motionResult.success then
    updateTaskQueueDb q1 queuedTasks.id
      { status := some "completed", retry_count := none, error_message := none } now
  else
    updateTaskQueueDb q1 queuedTasks.id
      { status := some "failed", retry_count := some (queuedTasks.retry_count + 1)
        error_message := some "Motion API error" } now

/-- `processRetryQueue` from `src/handlers/batch.js`: pull up to 5 pending
rows, and for each one either mark it `failed` when its counter already
reached 3, or retry the Motion sync — back to `pending` with the counter
bumped on failure, `completed` on success.  `syncOk` stands for the
outcome of `createMultipleTasks` (a thrown transport error takes the same
failure update, with the thrown message stored instead). -/
def processRetryQueue (syncOk : List MTask → Bool) (q : List QueueEntry)
    (now : Nat) : List QueueEntry :=
  let pendingTasks := getPendingTasksDb 5 q
  pendingTasks.foldl (fun acc task =>
    if 3 ≤ task.retry_count then
      updateTaskQueueDb acc task.id
        { status := some "failed", retry_count := none
          error_message := some "Max retries exceeded" } now
    else if syncOk task.extracted_tasks then
      updateTaskQueueDb acc task.id
        { status := some "completed", retry_count := none
          error_message := none } now
    else
      updateTaskQueueDb acc task.id
        { status := some "pending", retry_count := some (task.retry_count + 1)
          error_message := some "Motion sync failed" } now) q

/-- The observable outcome of the `approve_tasks` button handler of
`src/app-full.js`: the queue store afterwards, the Motion create calls it
issued (task, workspace id, project id), and the chat texts it posted. -/
structure ApproveOutcome where
  queue : List QueueEntry
  motionCalls : List (MTask × String × Option String)
  messages : List String
deriving Repr, DecidableEq

/-- The informational reply the handler posts when the entry is not
`pending` any more. -/
def msgAlready (status : String) : String :=
  if status == "completed" then "Tasks already created."
  else "Tasks already being processed."

/-- The `app.action('approve_tasks')` handler of `src/app-full.js`
(flat-file backend): look the entry up by message key; bail out with a
chat notice when it is missing or not `pending`; otherwise mark it
`processing`, bail out when it has no workspace suggestions, else issue
one `createTask` call per task that has a suggestion at its index, and
mark the entry `completed` when at least one call succeeded, `failed`
otherwise.  `createTask` stands for the Motion network call; the history
insert and the per-call delays are omitted. -/
def approveTasksAction (q : List QueueEntry) (messageTs channelId : String)
    (createTask : MTask → String → Option String → CreateResult)
    (now : Nat) : ApproveOutcome :=
  match getTaskByMessage q messageTs channelId with
  | none => ⟨q, [], ["Could not find tasks to create."]⟩
  | some storedTask =>
    if storedTask.status ≠ "pending" then
      ⟨q, [], [msgAlready storedTask.status]⟩
    else
      let q1 := updateTaskQueueLocal q storedTask.id
        { status := some "processing", retry_count := none, error_message := none } now
      if storedTask.workspace_suggestions = [] then
        ⟨q1, [], ["Creating tasks in Motion...", "No workspace suggestions available."]⟩
      else
        let pairs := storedTask.extracted_tasks.enum.filterMap (fun p =>
          (storedTask.workspace_suggestions.get? p.1).map (fun s => (p.2, s)))
        let calls := pairs.map (fun p =>
          (p.1, p.2.workspace.id, p.2.project.map Project.id))
        let results := pairs.map (fun p =>
          createTask p.1 p.2.workspace.id (p.2.project.map Project.id))
        let successful := (results.filter (fun r => r.success)).length
        if 0 < successful then
          ⟨updateTaskQueueLocal q1 storedTask.id
            { status := some "completed", retry_count := none
              error_message := none } now,
           calls, ["Creating tasks in Motion...", "Successfully created tasks in Motion."]⟩
        else
          ⟨updateTaskQueueLocal q1 storedTask.id
            { status := some "failed", retry_count := none
              error_message := some "Motion API error" } now,
           calls, ["Creating tasks in Motion...", "Failed to sync tasks to Motion."]⟩

/-- The stop-word list of `WorkspaceMatcherService.isStopWord`. -/
def stopWords : List String :=
  ["the", "and", "for", "are", "but", "not", "you", "all", "can", "had",
   "her", "was", "one", "our", "out", "day", "get", "has", "him", "his",
   "how", "its", "may", "new", "now", "old", "see", "two", "who", "boy",
   "did", "she", "use", "way", "will", "need", "have", "this", "that",
   "with", "they"]

/-- `WorkspaceMatcherService.isStopWord`. -/
def isStopWord (w : String) : Bool :=
  stopWords.contains w

/-- A character the regex class `\w` matches. -/
def isWordChar (c : Char) : Bool :=
  c.isAlphanum || c = '_'

/-- JavaScript `[...new Set(words)]`: deduplicate keeping the first
occurrence of each word. -/
def jsDedup : List String → List String :=
  go []
where
  /-- Accumulating pass remembering the words already emitted. -/
  go (seen : List String) : List String → List String
    | [] => []
    | w :: ws => if seen.contains w then go seen ws else w :: go (w :: seen) ws

/-- `WorkspaceMatcherService.extractKeywords`: lowercase, replace
non-word, non-space characters by spaces, split at whitespace, keep words
longer than 2 characters that are not stop words, deduplicate. -/
def extractKeywords (text : String) : List String :=
  let replaced := (jsLower text).toList.map (fun c =>
    if isWordChar c || c.isWhitespace then c else ' ')
  let words := ((splitWs replaced).map String.mk).filter
    (fun w => decide (2 < w.length) && !(isStopWord w))
  jsDedup words

/-- `WorkspaceMatcherService.isPersonalTask`. -/
def isPersonalTask (text : String) : Bool :=
  ["personal", "home", "health", "doctor", "appointment", "family",
   "vacation", "shopping", "errands"].any (fun k => strContains text k)

/-- `WorkspaceMatcherService.isWorkTask`. -/
def isWorkTask (text : String) : Bool :=
  ["client", "project", "meeting", "deadline", "business", "company",
   "team", "development", "marketing"].any (fun k => strContains text k)

/-- The score record `calculateWorkspaceScore` returns. -/
structure ScoreResult where
  total : Nat
  reasoning : String
deriving Repr, DecidableEq

/-- `WorkspaceMatcherService.calculateWorkspaceScore`: +5 per extracted
keyword occurring in the workspace name, +10 for the `nastygram` pair,
+8 for `labcorp`/`health`, +3 for a personal or work classification
matching the naming convention, and a +1 default for a `personal`
workspace that scored nothing. -/
def calculateWorkspaceScore (taskText : String) (workspace : Workspace) :
    ScoreResult :=
  let workspaceName := jsLower workspace.name
  let keywords := extractKeywords taskText
  let s1 := keywords.foldl (fun (acc : Nat × List String) keyword =>
    if strContains workspaceName keyword then
      (acc.1 + 5, acc.2 ++ ["keyword match: " ++ keyword])
    else acc) (0, [])
  let s2 :=
    if strContains taskText "nastygram" && strContains workspaceName "nastygram" then
      (s1.1 + 10, s1.2 ++ ["project context match: nastygram"])
    else s1
  let s3 :=
    if strContains taskText "labcorp" && strContains workspaceName "health" then
      (s2.1 + 8, s2.2 ++ ["health-related task"])
    else s2
  let s4 :=
    if isPersonalTask taskText && strContains workspaceName "personal" then
      (s3.1 + 3, s3.2 ++ ["personal task classification"])
    else s3
  let s5 :=
    if isWorkTask taskText &&
        (strContains workspaceName "dkc" || strContains workspaceName "dkdev") then
      (s4.1 + 3, s4.2 ++ ["work task classification"])
    else s4
  let s6 :=
    if strContains workspaceName "personal" && s5.1 == 0 then
      (s5.1 + 1, s5.2 ++ ["default personal workspace"])
    else s5
  { total := s6.1
    reasoning := if s6.2 = [] then "no specific matches"
      else String.intercalate ", " s6.2 }

/-- `WorkspaceMatcherService.findBestProject`: keyword-overlap scoring of
the project names, highest first, null when the best score is 0. -/
def findBestProject (taskText : String) (projects : List Project) :
    Option Project :=
  match projects with
  | [] => none
  | _ =>
    let projectMatches := stableSortBy (fun a b => decide (b.2 ≤ a.2))
      (projects.map (fun project =>
        (project, (extractKeywords taskText).foldl (fun (acc : Nat) keyword =>
          if strContains (jsLower project.name) keyword then acc + 5 else acc) 0)))
    match projectMatches with
    | [] => none
    | best :: _ => if 0 < best.2 then some best.1 else none

/-- One scored candidate inside `findBestMatch`. -/
structure WorkspaceMatch where
  workspace : Workspace
  score : ScoreResult
  reasoning : String
deriving Repr, DecidableEq

/-- `findBestMatch`'s return record. -/
structure BestMatch where
  workspace : Workspace
  project : Option Project
  confidence : String
  reasoning : String
deriving Repr, DecidableEq

/-- The task text `findBestMatch` scores against:
`` `${task.title} ${task.context || ''}`.toLowerCase() ``. -/
def taskTextOf (task : MTask) : String :=
  jsLower (task.title ++ " " ++ task.context.getD "")

/-- One element of the `workspaces.map(...)` step of `findBestMatch`:
the workspace with its score and the score's reasoning. -/
def mkWorkspaceMatch (taskText : String) (workspace : Workspace) :
    WorkspaceMatch :=
  { workspace := workspace
    score := calculateWorkspaceScore taskText workspace
    reasoning := (calculateWorkspaceScore taskText workspace).reasoning }

/-- The descending comparison of the candidate sort
(`(a, b) => b.score.total - a.score.total`). -/
def matchLe (a b : WorkspaceMatch) : Bool :=
  decide (b.score.total ≤ a.score.total)

/-- The scored-and-sorted candidate list of `findBestMatch`. -/
def workspaceMatchesOf (taskText : String) (workspaces : List Workspace) :
    List WorkspaceMatch :=
  stableSortBy matchLe (workspaces.map (mkWorkspaceMatch taskText))

/-- `WorkspaceMatcherService.findBestMatch`: score every workspace, sort
the candidates by descending total (stable), take the first, attach the
best project of that workspace (`getProjects` stands for the Motion call,
returning `[]` on failure exactly as the guarded source path does), and
label the confidence by the winning score's thresholds. -/
def findBestMatch (task : MTask) (workspaces : List Workspace)
    (getProjects : String → List Project) : Option BestMatch :=
  let taskText := taskTextOf task
  match workspaceMatchesOf taskText workspaces with
  | [] => none
  | bestMatch :: _ =>
    let suggestedProject := findBestProject taskText (getProjects bestMatch.workspace.id)
    some
      { workspace := bestMatch.workspace
        project := suggestedProject
        confidence :=
          if 3 < bestMatch.score.total then "high"
          else if 1 < bestMatch.score.total then "medium"
          else "low"
        reasoning := bestMatch.reasoning }

/-- A parsed task object as Claude's JSON response yields it: every field
may be absent or hold any JavaScript value. -/
structure RawTask where
  title : Option JsVal
  assignee : Option JsVal
  due_date : Option JsVal
  confidence : Option JsVal
  context : Option JsVal
  priority : Option JsVal
  estimated_time : Option JsVal
deriving Repr, DecidableEq

/-- The cleaned task `ClaudeService.validateTask` returns when it keeps
the input. -/
structure CleanTask where
  title : String
  assignee : JsVal
  due_date : JsVal
  confidence : JsVal
  context : JsVal
  priority : JsVal
  estimated_time : JsVal
deriving Repr, DecidableEq

/-- JavaScript `v || d` on a possibly-absent value: the value when truthy,
the default otherwise. -/
def jsOr (v : Option JsVal) (d : JsVal) : JsVal :=
  if truthy v then v.getD d else d

/-- The allowed confidence and priority levels. -/
def allowedLevels : List JsVal :=
  [.vStr "high", .vStr "medium", .vStr "low"]

/-- `ClaudeService.validateTask` from `src/services/claude.js`: return
null when `!task.title || typeof task.title !== 'string'` (so an absent,
non-string, or empty-string title drops the task); otherwise trim the
title, default every falsy field (`assignee` to `'infer_from_context'`,
`due_date` and `estimated_time` to null, `confidence` and `priority` to
`'medium'`, `context` to the empty string), then force `confidence` and
`priority` into the allowed set. -/
def validateTaskClaude (task : RawTask) : Option CleanTask :=
  if !(truthy task.title && isStr task.title) then none
  else
    let conf := jsOr task.confidence (.vStr "medium")
    let prio := jsOr task.priority (.vStr "medium")
    some
      { title := String.mk (jsTrim (strVal task.title).toList)
        assignee := jsOr task.assignee (.vStr "infer_from_context")
        due_date := jsOr task.due_date .vNull
        confidence := if allowedLevels.contains conf then conf else .vStr "medium"
        context := jsOr task.context (.vStr "")
        priority := if allowedLevels.contains prio then prio else .vStr "medium"
        estimated_time := jsOr task.estimated_time .vNull }

/-- The `{valid, errors}` record both setup validators return. -/
structure Validation where
  valid : Bool
  errors : List String
deriving Repr, DecidableEq

/-- Whether a possibly-absent value is one of the allowed levels
(JavaScript `includes` with strict equality, so never for non-strings). -/
def levelAllowed (v : Option JsVal) : Bool :=
  match v with
  | some x => allowedLevels.contains x
  | none => false

/-- Whether `task.due_date.length > 100` holds: only a string has a
numeric `length`, any other value compares false. -/
def dueDateTooLong (v : Option JsVal) : Bool :=
  match v with
  | some (.vStr s) => decide (100 < s.length)
  | _ => false

/-- `validateTask` from `src/setup/supabase-setup.js`: collect field
errors (title required and at least 3 characters after trimming,
`assignee` a string when present, `confidence`/`priority` in the allowed
set when truthy, `due_date` at most 100 characters) and report validity as
their absence. -/
def validateTaskSetup (task : RawTask) : Validation :=
  let errors : List String :=
    (if !(truthy task.title && isStr task.title) then ["Task title is required"]
     else if (jsTrim (strVal task.title).toList).length < 3 then
       ["Task title must be at least 3 characters"]
     else []) ++
    (if truthy task.assignee && !(isStr task.assignee) then
       ["Assignee must be a string"]
     else []) ++
    (if truthy task.confidence && !(levelAllowed task.confidence) then
       ["Confidence must be high, medium, or low"]
     else []) ++
    (if truthy task.priority && !(levelAllowed task.priority) then
       ["Priority must be high, medium, or low"]
     else []) ++
    (if truthy task.due_date && dueDateTooLong task.due_date then
       ["Due date string is too long"]
     else [])
  { valid := errors.length == 0, errors := errors }

/-- The per-task error lines `validateTaskBatch` collects with its
`forEach` (index `k` is the position of the head of the remaining list). -/
def batchErrors (k : Nat) : List RawTask → List String
  | [] => []
  | task :: rest =>
    let validation := validateTaskSetup task
    (if validation.valid then []
     else ["Task " ++ toString (k + 1) ++ ": " ++
       String.intercalate ", " validation.errors]) ++
    batchErrors (k + 1) rest

/-- `validateTaskBatch` from `src/setup/supabase-setup.js`: an empty batch
or one of more than 10 tasks is rejected outright; otherwise the per-task
errors decide validity.  The input is typed as a list, so the source's
`Array.isArray` rejection cannot trigger here. -/
def validateTaskBatch (tasks : List RawTask) : Validation :=
  if tasks.length = 0 then
    { valid := false, errors := ["At least one task is required"] }
  else if 10 < tasks.length then
    { valid := false, errors := ["Maximum 10 tasks allowed per batch"] }
  else
    let allErrors := batchErrors 0 tasks
    { valid := allErrors.length == 0, errors := allErrors }

/-- Inserting with `insertS` yields a permutation of consing. -/
lemma insertS_perm {α : Type} (le : α → α → Bool) (x : α) (l : List α) :
    (insertS le x l).Perm (x :: l) := by
  induction l with
  | nil => exact List.Perm.refl _
  | cons y ys ih =>
    simp only [insertS]
    split
    · exact (ih.cons y).trans (List.Perm.swap x y ys)
    · exact List.Perm.refl _

/-- The fold underlying `stableSortBy` permutes its accumulator and
input. -/
lemma foldl_insertS_perm {α : Type} (le : α → α → Bool) :
    ∀ (l acc : List α),
      (l.foldl (fun acc x => insertS le x acc) acc).Perm (acc ++ l) := by
  intro l
  induction l with
  | nil => intro acc; simp
  | cons x xs ih =>
    intro acc
    have h1 := ih (insertS le x acc)
    have h2 : (insertS le x acc ++ xs).Perm ((x :: acc) ++ xs) :=
      (insertS_perm le x acc).append_right xs
    exact (h1.trans (h2.trans List.perm_middle.symm))

/-- `stableSortBy` permutes its input. -/
lemma stableSortBy_perm {α : Type} (le : α → α → Bool) (l : List α) :
    (stableSortBy le l).Perm l := by
  simpa using foldl_insertS_perm le l []

/-- `insertS` preserves sortedness for a total, transitive comparison. -/
lemma insertS_pairwise {α : Type} (le : α → α → Bool)
    (htot : ∀ a b, le a b = true ∨ le b a = true)
    (htrans : ∀ a b c, le a b = true → le b c = true → le a c = true)
    (x : α) (l : List α) (hl : l.Pairwise (fun a b => le a b = true)) :
    (insertS le x l).Pairwise (fun a b => le a b = true) := by
  induction l with
  | nil => simp [insertS]
  | cons y ys ih =>
    rw [List.pairwise_cons] at hl
    simp only [insertS]
    split
    · rename_i hyx
      rw [List.pairwise_cons]
      refine ⟨?_, ih hl.2⟩
      intro z hz
      rcases List.mem_cons.mp ((insertS_perm le x ys).mem_iff.mp hz) with hz1 | hz1
      · rwa [hz1]
      · exact hl.1 z hz1
    · rename_i hyx
      have hxy : le x y = true := by
        rcases htot x y with h | h
        · exact h
        · exact absurd h hyx
      rw [List.pairwise_cons]
      refine ⟨?_, List.pairwise_cons.mpr hl⟩
      intro z hz
      rcases List.mem_cons.mp hz with hz1 | hz1
      · rwa [hz1]
      · exact htrans x y z hxy (hl.1 z hz1)

/-- `stableSortBy` sorts, for a total, transitive comparison. -/
lemma stableSortBy_pairwise {α : Type} (le : α → α → Bool)
    (htot : ∀ a b, le a b = true ∨ le b a = true)
    (htrans : ∀ a b c, le a b = true → le b c = true → le a c = true)
    (l : List α) :
    (stableSortBy le l).Pairwise (fun a b => le a b = true) := by
  have haux : ∀ (l acc : List α), acc.Pairwise (fun a b => le a b = true) →
      (l.foldl (fun acc x => insertS le x acc) acc).Pairwise
        (fun a b => le a b = true) := by
    intro l
    induction l with
    | nil => intro acc h; simpa using h
    | cons x xs ih =>
      intro acc h
      exact ih (insertS le x acc) (insertS_pairwise le htot htrans x acc h)
  exact haux l [] (List.Pairwise.nil)

/-- The batching loop touches every task once, in order. -/
lemma batched_eq_map (f : MTask → CreateResult) :
    ∀ (l : List MTask), batched f l = l.map f := by
  have haux : ∀ (n : Nat) (l : List MTask), l.length ≤ n →
      batched f l = l.map f := by
    intro n
    induction n with
    | zero =>
      intro l h
      have : l = [] := List.length_eq_zero.mp (Nat.le_zero.mp h)
      subst this
      simp [batched]
    | succ n ih =>
      intro l h
      match l with
      | [] => simp [batched]
      | t :: ts =>
        have hlen : (ts.drop 9).length ≤ n := by
          simp only [List.length_cons] at h
          simp only [List.length_drop]
          omega
        rw [batched]
        rw [ih (ts.drop 9) hlen]
        rw [← List.map_append]
        congr 1
        show t :: ts.take 9 ++ ts.drop 9 = t :: ts
        rw [List.cons_append, List.take_append_drop]
  intro l
  exact haux l.length l (Nat.le_refl _)

/-- C10: `createMultipleTasks` returns one result per input task in input
order, and its overall success flag is true exactly when every per-task
result succeeded. -/
theorem c10_create_multiple_tasks_spec (f : MTask → CreateResult)
    (tasks : List MTask) :
    (createMultipleTasks f tasks).results = tasks.map f ∧
    (createMultipleTasks f tasks).results.length = tasks.length ∧
    ((createMultipleTasks f tasks).success = true ↔
      ∀ r ∈ (createMultipleTasks f tasks).results, r.success = true) := by
  have hres : (createMultipleTasks f tasks).results = tasks.map f := by
    simp [createMultipleTasks, batched_eq_map]
  have hsucc : (createMultipleTasks f tasks).success =
      (((tasks.map f).filter (fun r => !r.success)).length == 0) := by
    simp [createMultipleTasks, batched_eq_map]
  refine ⟨hres, by rw [hres]; simp, ?_⟩
  rw [hsucc, hres]
  simp only [beq_iff_eq, List.length_eq_zero, List.filter_eq_nil_iff]
  constructor
  · intro h r hr
    simpa using h r hr
  · intro h r hr
    simpa using h r hr

/-- Witness for C10 at a concrete task list and oracle. -/
theorem c10_create_multiple_tasks_spec_witness :
    (createMultipleTasks (fun _ => ⟨true⟩)
      [{ title := "Write report", context := none, priority := none,
         due_date := none, assignee := none }]).results = [⟨true⟩] :=
  ((c10_create_multiple_tasks_spec (fun _ => ⟨true⟩)
    [{ title := "Write report", context := none, priority := none,
       due_date := none, assignee := none }]).1).trans rfl

/-- A concrete task draft used by the failing-input evaluations. -/
def demoTask : MTask :=
  { title := "Write report", context := none, priority := none,
    due_date := none, assignee := none }

/-- The C1 failing input: a pending row whose counter already reached 2,
about to fail its third sync attempt. -/
def c1entry : QueueEntry :=
  { id := 1, slack_message_ts := "111.222", slack_channel_id := "CH1",
    extracted_tasks := [demoTask], workspace_suggestions := [],
    status := "pending", retry_count := 2, error_message := none,
    created_at := 0, last_attempt := none }

/-- C1 (code bug): after the sweep fails the third sync attempt, the row
ends with `status = 'pending'` and `retry_count = 3` — it is never marked
`failed`, because `getPendingTasks` filters `retry_count < 3` before the
sweep's mark-failed branch can ever see such a row — yet it is indeed
absent from every later sweep's `getPendingTasks`. -/
theorem c1_retry_sweep_leaves_pending :
    processRetryQueue (fun _ => false) [c1entry] 7 =
      [{ c1entry with
          status := "pending",
          retry_count := 3,
          error_message := some "Motion sync failed",
          last_attempt := some 7 }] ∧
    (processRetryQueue (fun _ => false) [c1entry] 7).map QueueEntry.status ≠
      ["failed"] ∧
    getPendingTasksDb 5 (processRetryQueue (fun _ => false) [c1entry] 7) = [] := by
  decide

/-- The C2 failing input: a fresh pending row whose approval fails the
Motion sync. -/
def c2entry : QueueEntry :=
  { id := 2, slack_message_ts := "333.444", slack_channel_id := "CH2",
    extracted_tasks := [demoTask], workspace_suggestions := [],
    status := "pending", retry_count := 0, error_message := none,
    created_at := 0, last_attempt := none }

/-- C2 (code bug): approving a pending entry whose Motion create fails
leaves it in `status = 'failed'` with `retry_count = 1`, not back in
`pending` — so the retry sweep never sees it again, contradicting the
handler's own "queued for retry" notice; the success path does reach
`completed`. -/
theorem c2_approval_failure_marks_failed :
    handleTaskApproval c2entry (fun _ => ⟨false⟩) [c2entry] 9 =
      [{ c2entry with
          status := "failed",
          retry_count := 1,
          error_message := some "Motion API error",
          last_attempt := some 9 }] ∧
    getPendingTasksDb 10
      (handleTaskApproval c2entry (fun _ => ⟨false⟩) [c2entry] 9) = [] ∧
    handleTaskApproval c2entry (fun _ => ⟨true⟩) [c2entry] 9 =
      [{ c2entry with status := "completed", last_attempt := some 9 }] := by
  refine ⟨?_, ?_, ?_⟩
  · simp only [handleTaskApproval, createMultipleTasks, batched_eq_map]
    decide
  · simp only [handleTaskApproval, createMultipleTasks, batched_eq_map]
    decide
  · simp only [handleTaskApproval, createMultipleTasks, batched_eq_map]
    decide

/-- The comparison `createdLe` is total. -/
lemma createdLe_total (a b : QueueEntry) :
    createdLe a b = true ∨ createdLe b a = true := by
  simp only [createdLe, decide_eq_true_eq]
  exact Nat.le_total a.created_at b.created_at

/-- The comparison `createdLe` is transitive. -/
lemma createdLe_trans (a b c : QueueEntry) :
    createdLe a b = true → createdLe b c = true → createdLe a c = true := by
  simp only [createdLe, decide_eq_true_eq]
  exact Nat.le_trans

/-- Rows passing `pendingPred` are pending with fewer than 3 retries. -/
lemma pendingPred_spec (e : QueueEntry) (h : pendingPred e = true) :
    e.status = "pending" ∧ e.retry_count < 3 := by
  simp only [pendingPred, Bool.and_eq_true, beq_iff_eq, decide_eq_true_eq] at h
  exact h

/-- C3 (amended): the Supabase `getPendingTasks` returns only pending rows
with fewer than 3 retries, sorted oldest first, capped at the limit, and
exactly the matching rows whenever they fit under the limit; the flat-file
`getPendingTasks` returns the first `limit` matching rows in stored order,
which is oldest-first whenever the stored list is in creation order (as
the appending `addToTaskQueue` maintains). -/
theorem c3_list_pending_spec (q : List QueueEntry) (n : Nat) :
    (∀ e ∈ getPendingTasksDb n q, e.status = "pending" ∧ e.retry_count < 3) ∧
    (getPendingTasksDb n q).Pairwise (fun a b => a.created_at ≤ b.created_at) ∧
    (getPendingTasksDb n q).length ≤ n ∧
    ((q.filter pendingPred).length ≤ n →
      (getPendingTasksDb n q).Perm (q.filter pendingPred)) ∧
    (∀ e ∈ getPendingTasksLocal n q, e.status = "pending" ∧ e.retry_count < 3) ∧
    (getPendingTasksLocal n q).length ≤ n ∧
    (q.Pairwise (fun a b => a.created_at ≤ b.created_at) →
      (getPendingTasksLocal n q).Pairwise
        (fun a b => a.created_at ≤ b.created_at)) ∧
    ((q.filter pendingPred).length ≤ n →
      getPendingTasksLocal n q = q.filter pendingPred) := by
  have hperm := stableSortBy_perm createdLe (q.filter pendingPred)
  refine ⟨?_, ?_, ?_, ?_, ?_, ?_, ?_, ?_⟩
  · intro e he
    have h1 : e ∈ stableSortBy createdLe (q.filter pendingPred) :=
      List.take_subset n _ he
    have h2 : e ∈ q.filter pendingPred := hperm.mem_iff.mp h1
    exact pendingPred_spec e (List.mem_filter.mp h2).2
  · have hs := stableSortBy_pairwise createdLe createdLe_total createdLe_trans
      (q.filter pendingPred)
    have ht : (getPendingTasksDb n q).Pairwise (fun a b => createdLe a b = true) :=
      List.Pairwise.sublist (List.take_sublist n _) hs
    exact ht.imp (fun h => by simpa [createdLe, decide_eq_true_eq] using h)
  · exact List.length_take_le n _
  · intro h
    have hlen : (stableSortBy createdLe (q.filter pendingPred)).length ≤ n := by
      rw [hperm.length_eq]; exact h
    rw [getPendingTasksDb, List.take_of_length_le hlen]
    exact hperm
  · intro e he
    have h2 : e ∈ q.filter pendingPred :=
      List.take_subset n _ he
    exact pendingPred_spec e (List.mem_filter.mp h2).2
  · exact List.length_take_le n _
  · intro h
    exact List.Pairwise.sublist (List.take_sublist n _) (h.filter pendingPred)
  · intro h
    rw [getPendingTasksLocal, List.take_of_length_le h]

/-- A concrete later-created pending row, stored first. -/
def c3late : QueueEntry :=
  { id := 10, slack_message_ts := "10.0", slack_channel_id := "CH3",
    extracted_tasks := [], workspace_suggestions := [],
    status := "pending", retry_count := 0, error_message := none,
    created_at := 5, last_attempt := none }

/-- A concrete earlier-created pending row, stored second. -/
def c3early : QueueEntry :=
  { id := 11, slack_message_ts := "11.0", slack_channel_id := "CH3",
    extracted_tasks := [], workspace_suggestions := [],
    status := "pending", retry_count := 0, error_message := none,
    created_at := 1, last_attempt := none }

/-- C3 counterexample: on a stored list that is not in creation order, the
flat-file `getPendingTasks` does not return the matches oldest first. -/
theorem c3_local_order_counterexample :
    getPendingTasksLocal 10 [c3late, c3early] = [c3late, c3early] ∧
    c3early.created_at < c3late.created_at := by
  decide

/-- Witness for C3 at a concrete store and limit. -/
theorem c3_list_pending_spec_witness :
    (getPendingTasksDb 5 [c3late, c3early]).Perm
      ([c3late, c3early].filter pendingPred) ∧
    (getPendingTasksDb 5 [c3late, c3early]).length ≤ 5 :=
  ⟨(c3_list_pending_spec [c3late, c3early] 5).2.2.2.1 (by decide),
   (c3_list_pending_spec [c3late, c3early] 5).2.2.1⟩

/-- A matching entry created first and stored first. -/
def c4old : QueueEntry :=
  { id := 20, slack_message_ts := "m", slack_channel_id := "c",
    extracted_tasks := [], workspace_suggestions := [],
    status := "pending", retry_count := 0, error_message := none,
    created_at := 1, last_attempt := none }

/-- A matching entry created later and stored second. -/
def c4new : QueueEntry :=
  { id := 21, slack_message_ts := "m", slack_channel_id := "c",
    extracted_tasks := [], workspace_suggestions := [],
    status := "pending", retry_count := 0, error_message := none,
    created_at := 2, last_attempt := none }

/-- C4 counterexample: with two entries under the same key,
`getTaskByMessage` returns the first stored (earliest created) one, not
the most recently created match. -/
theorem c4_find_by_key_counterexample :
    getTaskByMessage [c4old, c4new] "m" "c" = some c4old ∧
    c4new ∈ [c4old, c4new] ∧
    matchKey "m" "c" c4new = true ∧
    c4old.created_at < c4new.created_at := by
  decide

/-- C4 (amended): `getTaskByMessage` returns the first stored matching
entry (the head of the matches in insertion order), and none exactly when
no stored entry matches the key. -/
theorem c4_find_by_key_first_match (q : List QueueEntry) (ts ch : String) :
    getTaskByMessage q ts ch = (q.filter (matchKey ts ch)).head? ∧
    (getTaskByMessage q ts ch = none ↔ ∀ e ∈ q, matchKey ts ch e = false) := by
  constructor
  · induction q with
    | nil => rfl
    | cons e rest ih =>
      cases h : matchKey ts ch e with
      | true =>
        simp [getTaskByMessage, List.find?, List.filter, h]
      | false =>
        simp only [getTaskByMessage, List.find?, List.filter, h] at ih
        simp only [getTaskByMessage, List.find?, List.filter, h]
        exact ih
  · rw [getTaskByMessage, List.find?_eq_none]
    simp

/-- Witness for C4 at a concrete store. -/
theorem c4_find_by_key_first_match_witness :
    getTaskByMessage [c4old, c4new] "x" "c" = none :=
  (c4_find_by_key_first_match [c4old, c4new] "x" "c").2.mpr (by decide)

/-- A batch in which every task passes `validateTask` collects no error
lines. -/
lemma batchErrors_eq_nil (tasks : List RawTask)
    (h : ∀ t ∈ tasks, (validateTaskSetup t).valid = true) :
    ∀ k, batchErrors k tasks = [] := by
  induction tasks with
  | nil => intro k; rfl
  | cons t ts ih =>
    intro k
    have ht : (validateTaskSetup t).valid = true := h t (by simp)
    have hts : ∀ x ∈ ts, (validateTaskSetup x).valid = true := by
      intro x hx
      exact h x (by simp [hx])
    simp [batchErrors, ht, ih hts]

/-- C5: a batch of 1 to 10 individually valid tasks is accepted, and a
batch of length 0 or more than 10 is rejected with a non-empty error
list. -/
theorem c5_validate_task_batch_bounds (tasks : List RawTask) :
    ((∀ t ∈ tasks, (validateTaskSetup t).valid = true) → 1 ≤ tasks.length →
      tasks.length ≤ 10 → (validateTaskBatch tasks).valid = true) ∧
    (tasks.length = 0 ∨ 10 < tasks.length →
      (validateTaskBatch tasks).valid = false ∧
      (validateTaskBatch tasks).errors ≠ []) := by
  constructor
  · intro hall h1 h10
    have hne : ¬ tasks.length = 0 := by omega
    have hnot : ¬ 10 < tasks.length := by omega
    simp [validateTaskBatch, hne, hnot, batchErrors_eq_nil tasks hall 0]
  · intro h
    rcases h with h0 | h10
    · have : tasks = [] := List.length_eq_zero.mp h0
      subst this
      simp [validateTaskBatch]
    · have hne : ¬ tasks.length = 0 := by omega
      simp [validateTaskBatch, hne, h10]

/-- A concrete valid raw task. -/
def validRaw : RawTask :=
  { title := some (.vStr "Ship the release"), assignee := none,
    due_date := none, confidence := none, context := none,
    priority := none, estimated_time := none }

/-- Witness for C5 at a concrete singleton batch and the empty batch. -/
theorem c5_validate_task_batch_bounds_witness :
    (validateTaskBatch [validRaw]).valid = true ∧
    (validateTaskBatch []).valid = false :=
  ⟨(c5_validate_task_batch_bounds [validRaw]).1 (by decide) (by decide)
    (by decide),
   ((c5_validate_task_batch_bounds []).2 (Or.inl rfl)).1⟩

/-- The head of a `stableSortBy` result belongs to the input and precedes
every input element under a total, transitive comparison. -/
lemma stableSortBy_head_max {α : Type} (le : α → α → Bool)
    (htot : ∀ a b, le a b = true ∨ le b a = true)
    (htrans : ∀ a b c, le a b = true → le b c = true → le a c = true)
    (l : List α) (b : α) (rest : List α)
    (hs : stableSortBy le l = b :: rest) :
    b ∈ l ∧ ∀ x ∈ l, le b x = true := by
  have hperm := stableSortBy_perm le l
  rw [hs] at hperm
  constructor
  · exact hperm.mem_iff.mp (by simp)
  · intro x hx
    have hx2 : x ∈ b :: rest := hperm.mem_iff.mpr hx
    rcases List.mem_cons.mp hx2 with h1 | h1
    · subst h1
      rcases htot x x with hh | hh
      · exact hh
      · exact hh
    · have hpw := stableSortBy_pairwise le htot htrans l
      rw [hs, List.pairwise_cons] at hpw
      exact hpw.1 x h1

/-- The candidate comparison is total. -/
lemma matchLe_total (a b : WorkspaceMatch) :
    matchLe a b = true ∨ matchLe b a = true := by
  simp only [matchLe, decide_eq_true_eq]
  exact Nat.le_total b.score.total a.score.total

/-- The candidate comparison is transitive. -/
lemma matchLe_trans (a b c : WorkspaceMatch) :
    matchLe a b = true → matchLe b c = true → matchLe a c = true := by
  simp only [matchLe, decide_eq_true_eq]
  intro h1 h2
  exact Nat.le_trans h2 h1

/-- C6: for a non-empty workspace list, `findBestMatch` picks a workspace
whose score is maximal, and labels it `high` exactly when that winning
score exceeds 3, `medium` exactly when it exceeds 1 but not 3, and `low`
otherwise. -/
theorem c6_confidence_thresholds (task : MTask) (workspaces : List Workspace)
    (getProjects : String → List Project) (h : workspaces ≠ []) :
    ∃ b, findBestMatch task workspaces getProjects = some b ∧
      b.workspace ∈ workspaces ∧
      (∀ w ∈ workspaces,
        (calculateWorkspaceScore (taskTextOf task) w).total ≤
          (calculateWorkspaceScore (taskTextOf task) b.workspace).total) ∧
      b.confidence =
        (if 3 < (calculateWorkspaceScore (taskTextOf task) b.workspace).total
         then "high"
         else if 1 < (calculateWorkspaceScore (taskTextOf task) b.workspace).total
         then "medium"
         else "low") := by
  cases hs : workspaceMatchesOf (taskTextOf task) workspaces with
  | nil =>
    exfalso
    have hperm := stableSortBy_perm matchLe
      (workspaces.map (mkWorkspaceMatch (taskTextOf task)))
    rw [show stableSortBy matchLe
        (workspaces.map (mkWorkspaceMatch (taskTextOf task))) =
        workspaceMatchesOf (taskTextOf task) workspaces from rfl, hs] at hperm
    have hlen := hperm.length_eq
    simp only [List.length_nil, List.length_map] at hlen
    exact h (List.length_eq_zero.mp hlen.symm)
  | cons best rest =>
    have hs2 : stableSortBy matchLe
        (workspaces.map (mkWorkspaceMatch (taskTextOf task))) = best :: rest := hs
    have hmax := stableSortBy_head_max matchLe matchLe_total matchLe_trans
      (workspaces.map (mkWorkspaceMatch (taskTextOf task))) best rest hs2
    obtain ⟨hbmem, hble⟩ := hmax
    obtain ⟨w, hw, hwe⟩ := List.mem_map.mp hbmem
    have hbw : best.workspace = w := by rw [← hwe]; rfl
    have hbs : best.score = calculateWorkspaceScore (taskTextOf task) w := by
      rw [← hwe]; rfl
    have heq : findBestMatch task workspaces getProjects = some
        { workspace := best.workspace
          project := findBestProject (taskTextOf task)
            (getProjects best.workspace.id)
          confidence :=
            if 3 < best.score.total then "high"
            else if 1 < best.score.total then "medium"
            else "low"
          reasoning := best.reasoning } := by
      simp only [findBestMatch, hs]
    refine ⟨_, heq, ?_, ?_, ?_⟩
    · show best.workspace ∈ workspaces
      rw [hbw]
      exact hw
    · intro w2 hw2
      have hmem2 : mkWorkspaceMatch (taskTextOf task) w2 ∈
          workspaces.map (mkWorkspaceMatch (taskTextOf task)) :=
        List.mem_map_of_mem _ hw2
      have hle := hble _ hmem2
      simp only [matchLe, decide_eq_true_eq, mkWorkspaceMatch] at hle
      rw [hbs] at hle
      rw [hbw, hbs]
      exact hle
    · show (if 3 < best.score.total then "high"
        else if 1 < best.score.total then "medium" else "low") = _
      rw [hbw, ← hbs]

/-- A concrete workspace whose score for the demo task is 0. -/
def wsGeneral : Workspace := { id := "W1", name := "General" }

/-- Witness for C6 at a concrete task and workspace list. -/
theorem c6_confidence_thresholds_witness :
    (findBestMatch demoTask [wsGeneral] (fun _ => [])).isSome = true := by
  obtain ⟨b, h1, h2, h3, h4⟩ :=
    c6_confidence_thresholds demoTask [wsGeneral] (fun _ => []) (by decide)
  rw [h1]
  rfl

/-- A parsed object with a present, string-typed, but empty title. -/
def rawEmptyTitle : RawTask :=
  { title := some (.vStr ""), assignee := none, due_date := none,
    confidence := none, context := none, priority := none,
    estimated_time := none }

/-- A parsed object with a valid title and every other field absent. -/
def rawPlain : RawTask :=
  { title := some (.vStr "Call the printer"), assignee := none,
    due_date := none, confidence := none, context := none,
    priority := none, estimated_time := none }

/-- The cleaned task `validateTaskClaude` produces for `rawPlain`. -/
def cleanPlain : CleanTask :=
  { title := "Call the printer", assignee := .vStr "infer_from_context",
    due_date := .vNull, confidence := .vStr "medium", context := .vStr "",
    priority := .vStr "medium", estimated_time := .vNull }

/-- C7 counterexample: a present, string-typed, empty title is dropped
(the claim says only missing or non-string titles are dropped), and an
absent assignee is defaulted to `'infer_from_context'`, which is neither
null nor the empty string. -/
theorem c7_validate_task_counterexample :
    validateTaskClaude rawEmptyTitle = none ∧
    isStr rawEmptyTitle.title = true ∧
    validateTaskClaude rawPlain = some cleanPlain ∧
    cleanPlain.assignee ≠ .vNull ∧
    cleanPlain.assignee ≠ .vStr "" := by
  decide

/-- A title is kept exactly when it is a present, non-empty string. -/
lemma titleOk_iff (t : RawTask) :
    (truthy t.title && isStr t.title) = true ↔
      ∃ s, t.title = some (JsVal.vStr s) ∧ s ≠ "" := by
  cases ht : t.title with
  | none => simp [truthy, isStr]
  | some v =>
    cases v with
    | vStr s => simp [truthy, isStr]
    | vNum n => simp [truthy, isStr]
    | vNull => simp [truthy, isStr]

/-- Membership in the allowed levels, spelled out. -/
lemma mem_allowedLevels (x : JsVal) :
    x ∈ allowedLevels ↔
      x = .vStr "high" ∨ x = .vStr "medium" ∨ x = .vStr "low" := by
  simp [allowedLevels]

/-- Every allowed level is truthy. -/
lemma truthy_of_allowed (x : JsVal) (h : x ∈ allowedLevels) :
    truthy (some x) = true := by
  rcases (mem_allowedLevels x).mp h with h1 | h1 | h1 <;> subst h1 <;> decide

/-- The Bool-level gate and the membership proposition agree. -/
lemma levelAllowed_some (x : JsVal) :
    levelAllowed (some x) = true ↔ x ∈ allowedLevels := by
  simp only [levelAllowed]
  exact List.elem_iff

/-- When the stored value is outside the allowed levels, the confidence or
priority normalisation lands on `'medium'`. -/
lemma normLevel_of_not_allowed (v : Option JsVal) (h : levelAllowed v = false) :
    (if jsOr v (.vStr "medium") ∈ allowedLevels then jsOr v (.vStr "medium")
     else JsVal.vStr "medium") = JsVal.vStr "medium" := by
  cases v with
  | none =>
    simp [jsOr, truthy]
  | some x =>
    by_cases ht : truthy (some x) = true
    · have hnm : ¬ x ∈ allowedLevels := by
        intro hm
        rw [(levelAllowed_some x).mpr hm] at h
        exact Bool.noConfusion h
      simp [jsOr, ht, hnm]
    · have hf : truthy (some x) = false := by
        revert ht; cases truthy (some x) <;> simp
      simp [jsOr, hf]

/-- When the stored value is one of the allowed levels, the normalisation
keeps it. -/
lemma normLevel_of_allowed (v : Option JsVal) (h : levelAllowed v = true) :
    v = some (if jsOr v (.vStr "medium") ∈ allowedLevels then
        jsOr v (.vStr "medium")
      else JsVal.vStr "medium") := by
  cases v with
  | none => simp [levelAllowed] at h
  | some x =>
    have hm : x ∈ allowedLevels := (levelAllowed_some x).mp h
    have ht := truthy_of_allowed x hm
    simp [jsOr, ht, hm]

/-- C7 (amended): `validateTaskClaude` drops a task exactly when its title
is absent, not a string, or the empty string; when the task is kept, a
confidence or priority outside the allowed set (including falsy or
non-string values) becomes `'medium'` while an allowed one is kept, an
absent assignee defaults to `'infer_from_context'`, absent `due_date` and
`estimated_time` default to null, and an absent context defaults to the
empty string. -/
theorem c7_validate_task_spec (t : RawTask) :
    (validateTaskClaude t = none ↔
      ¬ ∃ s, t.title = some (JsVal.vStr s) ∧ s ≠ "") ∧
    (∀ c, validateTaskClaude t = some c →
      (levelAllowed t.confidence = false → c.confidence = .vStr "medium") ∧
      (levelAllowed t.confidence = true → t.confidence = some c.confidence) ∧
      (levelAllowed t.priority = false → c.priority = .vStr "medium") ∧
      (levelAllowed t.priority = true → t.priority = some c.priority) ∧
      (t.assignee = none → c.assignee = .vStr "infer_from_context") ∧
      (t.due_date = none → c.due_date = .vNull) ∧
      (t.context = none → c.context = .vStr "") ∧
      (t.estimated_time = none → c.estimated_time = .vNull)) := by
  constructor
  · by_cases hc : (truthy t.title && isStr t.title) = true
    · constructor
      · intro hnone
        simp [validateTaskClaude, hc] at hnone
      · intro hno
        exact absurd ((titleOk_iff t).mp hc) hno
    · have hc2 : (truthy t.title && isStr t.title) = false := by
        revert hc; cases (truthy t.title && isStr t.title) <;> simp
      constructor
      · intro _
        intro hex
        rw [(titleOk_iff t).mpr hex] at hc2
        exact Bool.noConfusion hc2
      · intro _
        simp [validateTaskClaude, hc2]
  · intro c hsome
    have hc : (truthy t.title && isStr t.title) = true := by
      by_contra hcc
      have hc2 : (truthy t.title && isStr t.title) = false := by
        revert hcc; cases (truthy t.title && isStr t.title) <;> simp
      simp [validateTaskClaude, hc2] at hsome
    simp [validateTaskClaude, hc] at hsome
    subst hsome
    refine ⟨?_, ?_, ?_, ?_, ?_, ?_, ?_, ?_⟩
    · intro hna
      exact normLevel_of_not_allowed t.confidence hna
    · intro ha
      exact normLevel_of_allowed t.confidence ha
    · intro hna
      exact normLevel_of_not_allowed t.priority hna
    · intro ha
      exact normLevel_of_allowed t.priority ha
    · intro h5
      rw [show t.assignee = none from h5]
      rfl
    · intro h6
      rw [show t.due_date = none from h6]
      rfl
    · intro h7
      rw [show t.context = none from h7]
      rfl
    · intro h8
      rw [show t.estimated_time = none from h8]
      rfl

/-- Witness for C7 at the concrete kept task. -/
theorem c7_validate_task_spec_witness :
    cleanPlain.assignee = JsVal.vStr "infer_from_context" ∧
    cleanPlain.context = JsVal.vStr "" :=
  ⟨(((c7_validate_task_spec rawPlain).2 cleanPlain (by decide)).2.2.2.2.1) rfl,
   (((c7_validate_task_spec rawPlain).2 cleanPlain (by decide)).2.2.2.2.2.2.1) rfl⟩

/-- C8 counterexample: in `"  > a"` no line starts with the character
`>` (the single line starts with a space), yet `extractQuotedText` keeps
it, because the source filter trims the line before testing for `>`. -/
theorem c8_extract_quoted_counterexample :
    ((splitLines ("  > a").toList).all
      (fun l => !(startsWithList l ['>']))) = true ∧
    extractQuotedText "  > a" ≠ "" := by
  decide

/-- C8 (amended): when no line's whitespace-trimmed form starts with `>`,
`extractQuotedText` returns the empty string; and on the literal
`"> a\n> b"` it returns `"a b"`. -/
theorem c8_extract_quoted_spec (text : String) :
    ((∀ l ∈ splitLines text.toList,
        startsWithList (jsTrim l) ['>'] = false) →
      extractQuotedText text = "") ∧
    extractQuotedText "> a\n> b" = "a b" := by
  constructor
  · intro h
    have hfil : (splitLines text.data).filter
        (fun l => startsWithList (jsTrim l) ['>']) = [] := by
      rw [List.filter_eq_nil_iff]
      intro l hl
      simp [h l hl]
    simp [extractQuotedText, hfil]
    rfl
  · decide

/-- Witness for C8 on a concrete quote-free message. -/
theorem c8_extract_quoted_spec_witness :
    extractQuotedText "no quotes here" = "" :=
  (c8_extract_quoted_spec "no quotes here").1 (by decide)

/-- C9: when the stored entry found for the button's message key is not
`pending`, the `approve_tasks` handler issues no Motion create call and
leaves the queue store — hence every field of the entry — unchanged,
posting only the informational notice. -/
theorem c9_nonpending_approve_frame (q : List QueueEntry) (ts ch : String)
    (createTask : MTask → String → Option String → CreateResult) (now : Nat)
    (t : QueueEntry) (hfind : getTaskByMessage q ts ch = some t)
    (hst : t.status ≠ "pending") :
    (approveTasksAction q ts ch createTask now).queue = q ∧
    (approveTasksAction q ts ch createTask now).motionCalls = [] ∧
    (approveTasksAction q ts ch createTask now).messages =
      [msgAlready t.status] := by
  have hbody : approveTasksAction q ts ch createTask now =
      ⟨q, [], [msgAlready t.status]⟩ := by
    rw [approveTasksAction, hfind]
    simp [hst]
  rw [hbody]
  exact ⟨rfl, rfl, rfl⟩

/-- A concrete completed entry for the C9 witness. -/
def c9done : QueueEntry :=
  { id := 30, slack_message_ts := "m9", slack_channel_id := "c9",
    extracted_tasks := [demoTask], workspace_suggestions := [],
    status := "completed", retry_count := 0, error_message := none,
    created_at := 0, last_attempt := none }

/-- Witness for C9 at a concrete store holding a completed entry. -/
theorem c9_nonpending_approve_frame_witness :
    (approveTasksAction [c9done] "m9" "c9" (fun _ _ _ => ⟨true⟩) 5).queue =
      [c9done] ∧
    (approveTasksAction [c9done] "m9" "c9" (fun _ _ _ => ⟨true⟩) 5).motionCalls =
      [] :=
  ⟨(c9_nonpending_approve_frame [c9done] "m9" "c9" (fun _ _ _ => ⟨true⟩) 5
      c9done (by decide) (by decide)).1,
   (c9_nonpending_approve_frame [c9done] "m9" "c9" (fun _ _ _ => ⟨true⟩) 5
      c9done (by decide) (by decide)).2.1⟩
